import Mathlib

/-!
Shallow embedding of the YARP sensor bridge implementation
(header `YarpSensorBridgeImpl.h`, struct `YarpSensorBridge::Impl`).

Device handles (the entries of a `yarp::dev::PolyDriverList`) are modelled by
`DeviceHandle`: a string key together with the capability views the claims
need.  A capability view that the templated code obtains via
`poly->view(ptr)` is modelled as an `Option`: `none` when the view call fails
or yields a null pointer, `some _` when the typed accessor is obtained.  A
multiple-analog-sensor (MAS) interface is modelled by the list of instance
names it enumerates (`getNumberOfMASSensors` is its length,
`getMASSensorName` its indexed lookup).  The `unordered_map`s whose values
are accessor pointers are modelled by their key sets, kept as duplicate-free
lists; the maps holding image buffers are modelled as association lists from
camera name to the buffer's (rows, cols) shape.
-/

namespace YarpBridge

/-- Model of one entry of a `yarp::dev::PolyDriverList`: the device key and the
capability views offered by the underlying poly driver.  `genericView` holds
the live channel count when the `IGenericSensor`/`IAnalogSensor`-style view is
obtainable and non-null; `masFTView` holds the enumerated instance names when
the `ISixAxisForceTorqueSensors` MAS view is obtainable and non-null;
`hasAxisView`/`hasEncodersView` report the `IAxisInfo`/`IEncodersTimed` views;
`camView` is `none` when the frame-source `view(...)` call returns false,
`some false` when it returns true but leaves a null pointer, `some true` when
the camera accessor is obtained. -/
structure DeviceHandle where
  key : String
  genericView : Option Nat
  masFTView : Option (List String)
  hasAxisView : Bool
  hasEncodersView : Bool
  camView : Option Bool
  deriving DecidableEq

/-- Insertion into an `unordered_map` modelled by its key set:
`sensorMap[key] = value` adds the key when absent and overwrites the value
(leaving the key set unchanged) when present. -/
def mapInsertKey (m : List String) (k : String) : List String :=
  if k ∈ m then m else k :: m

/-- Embedding of `Impl::attachGenericOrAnalogSensor`.  The source scans the
whole device list (there is no break); a device whose key differs from
`sensorName` is skipped.  On a key match it requests the capability view
(`view dev`, returning the live channel count when obtainable and non-null):
a failed view is an immediate failure, a channel-count mismatch against
`nrChannelsInSensor` is an immediate failure, and otherwise the device key is
stored into the sensor map and the scan continues.  If no device matches, the
function returns success with the map unchanged. -/
def attachGenericOrAnalogSensor (view : DeviceHandle → Option Nat) (sensorName : String)
    (nrChannelsInSensor : Nat) : List DeviceHandle → List String → Option (List String)
  | [], sensorMap => some sensorMap
  | dev :: rest, sensorMap =>
    if sensorName ≠ dev.key then
      attachGenericOrAnalogSensor view sensorName nrChannelsInSensor rest sensorMap
    else
      match view dev with
      | none => none
      | some nrChannels =>
        if nrChannels ≠ nrChannelsInSensor then none
        else
          attachGenericOrAnalogSensor view sensorName nrChannelsInSensor rest
            (mapInsertKey sensorMap dev.key)

/-- Loop of `Impl::attachAllGenericOrAnalogSensors`: attach each expected name
in turn, breaking out at the first per-sensor failure. -/
def attachAllGenericOrAnalogSensorsLoop (view : DeviceHandle → Option Nat)
    (nrChannelsInSensor : Nat) (devList : List DeviceHandle) :
    List String → List String → Option (List String)
  | [], sensorMap => some sensorMap
  | name :: rest, sensorMap =>
    match attachGenericOrAnalogSensor view name nrChannelsInSensor devList sensorMap with
    | none => none
    | some m => attachAllGenericOrAnalogSensorsLoop view nrChannelsInSensor devList rest m

/-- Embedding of `Impl::attachAllGenericOrAnalogSensors`.  The member sensor
map is default-constructed, hence empty, when the category attachment runs;
after the per-name loop the source fails unless the loop completed and the
map's size equals the expected list's size. -/
def attachAllGenericOrAnalogSensors (view : DeviceHandle → Option Nat)
    (devList : List DeviceHandle) (nrChannelsInSensor : Nat)
    (sensorList : List String) : Bool :=
  match attachAllGenericOrAnalogSensorsLoop view nrChannelsInSensor devList sensorList [] with
  | none => false
  | some sensorMap => sensorMap.length == sensorList.length

/-- Count reported by a MAS interface, which is modelled by its enumerated
instance-name list (`Impl::getNumberOfMASSensors`). -/
def getNumberOfMASSensors (sensorInterface : List String) : Nat :=
  sensorInterface.length

/-- Indexed name lookup on a MAS interface (`Impl::getMASSensorName`). -/
def getMASSensorName (sensorInterface : List String) (sensIdx : Nat) : Option String :=
  sensorInterface[sensIdx]?

/-- Enumeration of all instance names of a MAS interface
(`Impl::getAllSensorsInMASInterface`). -/
def getAllSensorsInMASInterface (sensorInterface : List String) : List String :=
  sensorInterface

/-- Embedding of `Impl::checkAttachedMASSensors`.  The source first compares
the interface's reported sensor count with the expected list's size and fails
on mismatch.  The subsequent per-expected-name search over the enumerated
names only prints a message when a name is not found
(`if (!sensorFound) { std::cerr << ... }` with no early return), so that loop
has no effect on the returned value; the discarded `let` mirrors it. -/
def checkAttachedMASSensors (sensorInterface : List String) (sensorList : List String) : Bool :=
  if getNumberOfMASSensors sensorInterface ≠ sensorList.length then false
  else
    let _unfoundNamesOnlyLogged := sensorList.filter (fun n => ! sensorInterface.contains n)
    true

/-- Loop of `Impl::attachRemappedMASSensor`: scan the devices for the first
one whose MAS view is obtainable and non-null; assign it to the local pointer
variable and break.  Returns (final value of the local `masSensorInterface`
variable, the `broken` flag). -/
def attachRemappedMASSensorLoop (masView : DeviceHandle → Option (List String)) :
    List DeviceHandle → Option (List String) → Option (List String) × Bool
  | [], localPtr => (localPtr, false)
  | dev :: rest, localPtr =>
    match masView dev with
    | none => attachRemappedMASSensorLoop masView rest localPtr
    | some sensorInterface => (some sensorInterface, true)

/-- Embedding of
`Impl::attachRemappedMASSensor(devList, MASSensorType* masSensorInterface)`.
The pointer parameter is passed by value, so the body's assignment
`masSensorInterface = sensorInterface` writes the callee's local copy only;
the pair returned here is (the boolean result, the final value of that local
copy).  At every call site the caller's own pointer variable is unaffected by
the call. -/
def attachRemappedMASSensor (masView : DeviceHandle → Option (List String))
    (devList : List DeviceHandle) (masSensorInterface : Option (List String)) :
    Bool × Option (List String) :=
  let r := attachRemappedMASSensorLoop masView devList masSensorInterface
  if !r.2 || r.1.isNone then (false, r.1) else (true, r.1)

/-- Embedding of `Impl::attachAndCheckMASSensors`.  Both the discovery call
and the per-name check receive the caller-supplied pointer value
`sensorInterface` unchanged, because `attachRemappedMASSensor`'s pointer
parameter is by value: a successful discovery does not update this variable.
When the prior value is null the source would dereference a null pointer
inside `checkAttachedMASSensors`; that unmodelled execution is mapped to
`false` and is avoided by the theorems below. -/
def attachAndCheckMASSensors (masView : DeviceHandle → Option (List String))
    (devList : List DeviceHandle) (sensorInterface : Option (List String))
    (sensorList : List String) : Bool × Option (List String) :=
  if (attachRemappedMASSensor masView devList sensorInterface).1 = false then
    (false, sensorInterface)
  else
    match sensorInterface with
    | none => (false, none)
    | some iface => (checkAttachedMASSensors iface sensorList, sensorInterface)

/-- Embedding of `Impl::checkValid`, the read-gate consulted by every exposed
read operation: it fails unless both `bridgeInitialized` and `driversAttached`
are set. -/
def checkValid (bridgeInitialized driversAttached : Bool) : Bool :=
  if !(bridgeInitialized && driversAttached) then false else true

/-- Lexicographic comparison of character lists, each character compared by
its code point, mirroring `operator<` of `std::string` (byte-wise
lexicographic order; the sensor names involved are ASCII). -/
def charListLt : List Char → List Char → Bool
  | _, [] => false
  | [], _ :: _ => true
  | c :: cs, d :: ds =>
    if c.toNat < d.toNat then true
    else if d.toNat < c.toNat then false
    else charListLt cs ds

/-- Model of `operator<` on `std::string`. -/
def strLtB (a b : String) : Bool :=
  charListLt a.data b.data

/-- Ascending insertion used by `sortStrings`. -/
def insertAscending (x : String) : List String → List String
  | [] => [x]
  | y :: ys => if strLtB y x then y :: insertAscending x ys else x :: y :: ys

/-- Embedding of `std::sort` on a vector of strings: the ascending
(lexicographic `operator<`) sorted permutation of the input. -/
def sortStrings : List String → List String
  | [] => []
  | x :: xs => insertAscending x (sortStrings xs)

/-- Embedding of `std::set_intersection` on two sorted string ranges, written
exactly as the standard algorithm walks the two ranges. -/
def setIntersection : List String → List String → List String
  | [], _ => []
  | _ :: _, [] => []
  | a :: as, b :: bs =>
    if strLtB a b then setIntersection as (b :: bs)
    else if strLtB b a then setIntersection (a :: as) bs
    else a :: setIntersection as bs
termination_by l r => l.length + r.length

/-- Routing computation of `Impl::attachAllSixAxisForceTorqueSensors`: the
`analogFTSensors` list subsequently handed to the legacy analog attachment
(`attachAllGenericOrAnalogSensors`).  When the MAS discovery step succeeds the
source sorts the MAS-enumerated names (`MASFTs`) and a copy of the configured
expected list, and computes their `std::set_intersection` into
`analogFTSensors`; when discovery fails the whole expected list becomes the
analog list. -/
def sixAxisFTAnalogSensorsList (masDiscovered : Bool) (masNames : List String)
    (sixAxisForceTorqueSensorsList : List String) : List String :=
  if masDiscovered then
    setIntersection (sortStrings masNames) (sortStrings sixAxisForceTorqueSensorsList)
  else
    sixAxisForceTorqueSensorsList

/-- Embedding of `Impl::attachAllSixAxisForceTorqueSensors`.  `memberFT` is
the prior value of the member
`wholeBodyMASForceTorquesInterface.sixAxisFTSensors`, which the source
consults via `getAllSensorsInMASInterface` after the discovery call (the
discovery call cannot update the member, its pointer parameter being passed
by value). -/
def attachAllSixAxisForceTorqueSensors (enabled : Bool)
    (masView : DeviceHandle → Option (List String))
    (analogView : DeviceHandle → Option Nat) (devList : List DeviceHandle)
    (memberFT : List String) (sixAxisForceTorqueSensorsList : List String) : Bool :=
  if !enabled then true
  else
    let masDiscovered := (attachRemappedMASSensor masView devList (some memberFT)).1
    let analogFTSensors := sixAxisFTAnalogSensorsList masDiscovered
      (getAllSensorsInMASInterface memberFT) sixAxisForceTorqueSensorsList
    attachAllGenericOrAnalogSensors analogView devList 6 analogFTSensors

/-- The camera-related configuration keys, each `none` when absent from the
parameter handler and `some v` when present with value `v`. -/
structure CameraConfig where
  rgbCamerasList : Option (List String)
  rgbImageWidth : Option (List Int)
  rgbImageHeight : Option (List Int)
  depthCamerasList : Option (List String)
  depthImageWidth : Option (List Int)
  depthImageHeight : Option (List Int)
  deriving DecidableEq

/-- One camera block of `Impl::configureCameras` (the rgb and depth blocks are
textually identical up to key names).  When the camera-list key is absent the
block is skipped.  When it is present, the source runs
`if (ptr->getParameter("..._image_width", width, ...)) { ... return false; }`:
a present width key makes the function return false (likewise for the height
key), while an absent key leaves the locally declared vector empty, so the
subsequent size comparison is made against empty vectors. -/
def configureCamerasBlock (camListOpt : Option (List String))
    (widthOpt heightOpt : Option (List Int)) : Bool :=
  match camListOpt with
  | none => true
  | some camList =>
    match widthOpt with
    | some _ => false
    | none =>
      match heightOpt with
      | some _ => false
      | none =>
        let width : List Int := []
        let height : List Int := []
        if width.length ≠ camList.length || height.length ≠ camList.length then false
        else true

/-- Embedding of `Impl::configureCameras`: the rgb block followed, when it did
not return, by the depth block. -/
def configureCameras (cfg : CameraConfig) : Bool :=
  if !configureCamerasBlock cfg.rgbCamerasList cfg.rgbImageWidth cfg.rgbImageHeight then false
  else configureCamerasBlock cfg.depthCamerasList cfg.depthImageWidth cfg.depthImageHeight

/-- Loop of the interface discovery in
`Impl::attachRemappedRemoteControlBoard`: the flag `ok` starts true, is
and-ed with the two view results of the current device, and the loop breaks
when it is still true afterwards.  The flag is never reset between
iterations, so once false it stays false and, by short-circuiting, the views
of the later devices are not even requested. -/
def remoteControlBoardDiscoveryLoop : List DeviceHandle → Bool → Bool
  | [], ok => ok
  | dev :: rest, ok =>
    let ok1 := ok && dev.hasAxisView
    let ok2 := ok1 && dev.hasEncodersView
    if ok2 then ok2 else remoteControlBoardDiscoveryLoop rest ok2

/-- Discovery step of `Impl::attachRemappedRemoteControlBoard` (with the
kinematics category enabled): succeed when the loop ends with `ok` true. -/
def attachRemappedRemoteControlBoardDiscovery (devList : List DeviceHandle) : Bool :=
  remoteControlBoardDiscoveryLoop devList true

/-- Inner loop of `Impl::compareControlBoardJointsList`: scan the control
board's axis names from index 0 and return the index of the first exact match
with `joint`, or `none` when the name does not occur. -/
def findJointIdx (joint : String) : List String → Option Nat
  | [] => none
  | j :: js => if joint = j then some 0 else (findJointIdx joint js).map (· + 1)

/-- Outer loop of `Impl::compareControlBoardJointsList`: for every canonical
joint store the first matching control-board index into the remap vector; a
joint with no match aborts with failure. -/
def compareControlBoardJointsLoop (controlBoardJoints : List String) :
    List String → List Nat → Option (List Nat)
  | [], acc => some acc
  | joint :: rest, acc =>
    match findJointIdx joint controlBoardJoints with
    | none => none
    | some idx => compareControlBoardJointsLoop controlBoardJoints rest (acc ++ [idx])

/-- Embedding of `Impl::compareControlBoardJointsList`.  `jointsList` is the
configured canonical sequence, `controlBoardJoints` the axis-name sequence
read from the attached control board.  After the outer loop the source
additionally returns false when the `jointFound` flag is still false, which
(the loop having succeeded) is the case exactly when the canonical list is
empty. -/
def compareControlBoardJointsList (jointsList controlBoardJoints : List String) :
    Option (List Nat) :=
  match compareControlBoardJointsLoop controlBoardJoints jointsList [] with
  | none => none
  | some remap => if jointsList = [] then none else some remap

/-- Association-list lookup modelling `unordered_map::find`. -/
def mapFind (m : List (String × (Nat × Nat))) (k : String) : Option (Nat × Nat) :=
  match m with
  | [] => none
  | (k', v) :: rest => if k' = k then some v else mapFind rest k

/-- Association-list update modelling `map[k] = v` followed by the Eigen
`resize` of the stored buffer: insert or overwrite the shape bound to `k`. -/
def mapSet (m : List (String × (Nat × Nat))) (k : String) (v : Nat × Nat) :
    List (String × (Nat × Nat)) :=
  match m with
  | [] => [(k, v)]
  | (k', v') :: rest => if k' = k then (k, v) :: rest else (k', v') :: mapSet rest k v

/-- Embedding of `Impl::resizeImageBuffers`.  The source iterates the camera
list; for each camera it looks up the configured image dimensions and returns
false at the first camera with no entry — the buffers already resized for the
preceding cameras stay resized.  Returns (result, image-buffer map after the
call). -/
def resizeImageBuffers (imgDimensionsMap : List (String × (Nat × Nat))) :
    List String → List (String × (Nat × Nat)) → Bool × List (String × (Nat × Nat))
  | [], imgBuffersMap => (true, imgBuffersMap)
  | cam :: rest, imgBuffersMap =>
    match mapFind imgDimensionsMap cam with
    | none => (false, imgBuffersMap)
    | some imgDim => resizeImageBuffers imgDimensionsMap rest (mapSet imgBuffersMap cam imgDim)

/-- Embedding of `Impl::attachCamera`.  Devices whose key differs from
`sensorName` are skipped.  On a key match the frame-source view is requested:
when the view call returns false the scan silently continues (unlike the
generic/analog attachment there is no else branch), when it returns true with
a null pointer the function fails, and otherwise the key is stored and the
scan continues.  Returns (result, sensor map after the call). -/
def attachCamera (sensorName : String) :
    List DeviceHandle → List String → Bool × List String
  | [], sensorMap => (true, sensorMap)
  | dev :: rest, sensorMap =>
    if sensorName ≠ dev.key then attachCamera sensorName rest sensorMap
    else
      match dev.camView with
      | none => attachCamera sensorName rest sensorMap
      | some false => (false, sensorMap)
      | some true => attachCamera sensorName rest (mapInsertKey sensorMap dev.key)

/-- Per-camera loop of `Impl::attachAllCamerasOfSpecificType`, breaking out at
the first `attachCamera` failure while keeping the partially filled map. -/
def attachCameraLoop (devList : List DeviceHandle) :
    List String → List String → Bool × List String
  | [], sensorMap => (true, sensorMap)
  | cam :: rest, sensorMap =>
    match attachCamera cam devList sensorMap with
    | (false, m) => (false, m)
    | (true, m) => attachCameraLoop devList rest m

/-- Embedding of `Impl::attachAllCamerasOfSpecificType`: run `attachCamera`
for every expected camera, then require the sensor map's size to equal the
expected list's size, then run `resizeImageBuffers`.  Returns
(result, sensor map, image-buffer map) after the call. -/
def attachAllCamerasOfSpecificType (devList : List DeviceHandle)
    (camList : List String) (imgDimensionsMap : List (String × (Nat × Nat)))
    (sensorMap : List String) (imgBuffersMap : List (String × (Nat × Nat))) :
    Bool × List String × List (String × (Nat × Nat)) :=
  match attachCameraLoop devList camList sensorMap with
  | (false, m) => (false, m, imgBuffersMap)
  | (true, m) =>
    if m.length ≠ camList.length then (false, m, imgBuffersMap)
    else
      match resizeImageBuffers imgDimensionsMap camList imgBuffersMap with
      | (ok, buffers) => (ok, m, buffers)

/-- Image-buffer contents produced by the successfully processed prefix of the
camera list: every camera with a configured dimension entry, up to the first
camera without one, has its buffer resized. -/
def resizeImagePrefix (imgDimensionsMap : List (String × (Nat × Nat))) :
    List String → List (String × (Nat × Nat)) → List (String × (Nat × Nat))
  | [], imgBuffersMap => imgBuffersMap
  | cam :: rest, imgBuffersMap =>
    match mapFind imgDimensionsMap cam with
    | none => imgBuffersMap
    | some d => resizeImagePrefix imgDimensionsMap rest (mapSet imgBuffersMap cam d)

/-- C8: the read-gate passes exactly when both initialization and attachment
have succeeded; in every other state (never initialized, never attached, or a
failed re-attachment leaving `driversAttached` unset) the gate rejects the
read with the not-ready error. -/
theorem C8_read_gate_iff_initialized_and_attached :
    ∀ bridgeInitialized driversAttached : Bool,
      checkValid bridgeInitialized driversAttached = true ↔
        bridgeInitialized = true ∧ driversAttached = true := by
  decide

/-- C10: the post-attachment MAS check fails whenever the aggregate's reported
sensor count differs from the configured expected list's length, even when
every expected name is among the enumerated names (an aggregate exposing a
strict superset of the expected sensors is rejected). -/
theorem C10_mas_count_mismatch_fails
    (sensorInterface sensorList : List String)
    (_hsuperset : ∀ n ∈ sensorList, n ∈ sensorInterface)
    (hlen : sensorInterface.length ≠ sensorList.length) :
    checkAttachedMASSensors sensorInterface sensorList = false := by
  unfold checkAttachedMASSensors getNumberOfMASSensors
  simp [hlen]

/-- Witness for C10 at a concrete superset instance. -/
theorem C10_mas_count_mismatch_fails_witness :
    (∀ n ∈ ["s1"], n ∈ ["s1", "s2"]) ∧ ["s1", "s2"].length ≠ (["s1"] : List String).length ∧
      checkAttachedMASSensors ["s1", "s2"] ["s1"] = false :=
  ⟨by decide, by decide, C10_mas_count_mismatch_fails _ _ (by decide) (by decide)⟩

/-- C3 (code bug): with the gyroscope expected list `["r_leg_ft_gyro"]` and
the aggregate enumerating the single instance `"r_leg_gyro"`, the sensor
counts agree and the per-name search of `checkAttachedMASSensors` merely logs
the unmatched expected name without returning false, so the check reports
success.  The claim — consistent with the caller, which treats a false return
as "Could not find atleast one of the required sensors" — requires a hard
failure here. -/
theorem C3_unmatched_mas_name_only_logged :
    ("r_leg_ft_gyro" ∉ ["r_leg_gyro"]) ∧
      checkAttachedMASSensors ["r_leg_gyro"] ["r_leg_ft_gyro"] = true := by
  decide

/-- C6 (code bug): with `rgb_cameras_list = ["cam0"]` and both dimension keys
present with matching lengths (`rgb_image_width = [640]`,
`rgb_image_height = [480]`), `configureCameras` fails: the presence checks
are inverted (`if (ptr->getParameter("rgb_image_width", rgbWidth, ...)) { ...
return false; }`), so a present width key aborts configuration while the
printed message claims the key is "not available". -/
theorem C6_present_dimension_keys_rejected :
    configureCameras ⟨some ["cam0"], some [640], some [480], none, none, none⟩ = false := by
  decide

/-- C1 (code bug): with the six-axis force/torque expected list
`["r_leg_ft", "r_foot_ft"]` and the MAS aggregate enumerating `["r_leg_ft"]`,
the routing step stores the `std::set_intersection` of the two sorted lists
into `analogFTSensors`, so the legacy analog attachment is attempted exactly
for `"r_leg_ft"` — the name the aggregate already serves — and never for
`"r_foot_ft"`, contradicting the claim and the source's own comment ("those
not available in the MAS interface list are assumed to be analog FT
sensors").  Consequently the whole category attachment succeeds on a device
list with an analog view for `"r_leg_ft"` and no device at all for
`"r_foot_ft"`. -/
theorem C1_ft_reconciliation_routes_intersection_to_analog :
    sixAxisFTAnalogSensorsList true ["r_leg_ft"] ["r_leg_ft", "r_foot_ft"] = ["r_leg_ft"]
    ∧ attachAllSixAxisForceTorqueSensors true (fun d => d.masFTView)
        (fun d => d.genericView)
        [⟨"mas", none, some ["r_leg_ft"], false, false, none⟩,
         ⟨"r_leg_ft", some 6, none, false, false, none⟩]
        ["r_leg_ft"] ["r_leg_ft", "r_foot_ft"] = true := by
  have hlt1 : strLtB "r_foot_ft" "r_leg_ft" = true := by decide
  have hlt2 : strLtB "r_leg_ft" "r_foot_ft" = false := by decide
  have hlt3 : strLtB "r_leg_ft" "r_leg_ft" = false := by decide
  have hset : setIntersection ["r_leg_ft"] ["r_foot_ft", "r_leg_ft"] = ["r_leg_ft"] := by
    simp [setIntersection, hlt1, hlt2, hlt3]
  constructor
  · simp [sixAxisFTAnalogSensorsList, sortStrings, insertAscending, hlt1, hset]
  · simp only [attachAllSixAxisForceTorqueSensors, sixAxisFTAnalogSensorsList,
      getAllSensorsInMASInterface, sortStrings, insertAscending, hlt1, hset,
      Bool.not_true, if_true, if_false, ite_true, ite_false]
    decide

/-- Once the latched discovery flag is false it can never recover, whatever
devices remain in the list. -/
theorem remoteControlBoardDiscoveryLoop_false (devList : List DeviceHandle) :
    remoteControlBoardDiscoveryLoop devList false = false := by
  induction devList with
  | nil => rfl
  | cons d rest ih => simp [remoteControlBoardDiscoveryLoop, ih]

/-- C5 counterexample: a device list whose second handle offers both the
axis-naming and the timed-encoder view while the first lacks the axis view;
the discovery step nevertheless fails, because the `ok` flag is latched false
at the first device and short-circuits every later view request. -/
theorem C5_later_device_ignored_counterexample :
    ((⟨"cb1", none, none, true, true, none⟩ : DeviceHandle) ∈
        [(⟨"cb0", none, none, false, true, none⟩ : DeviceHandle),
         ⟨"cb1", none, none, true, true, none⟩]
      ∧ DeviceHandle.hasAxisView ⟨"cb1", none, none, true, true, none⟩ = true
      ∧ DeviceHandle.hasEncodersView ⟨"cb1", none, none, true, true, none⟩ = true)
    ∧ attachRemappedRemoteControlBoardDiscovery
        [⟨"cb0", none, none, false, true, none⟩,
         ⟨"cb1", none, none, true, true, none⟩] = false := by
  decide

/-- C5 (amended): the control-board discovery step succeeds exactly when the
device list is empty or its FIRST handle exposes both the axis-naming view
and the timed-encoder view; a later handle offering both views never rescues
a failure at an earlier one. -/
theorem C5_discovery_succeeds_iff_first_device (devList : List DeviceHandle) :
    attachRemappedRemoteControlBoardDiscovery devList = true ↔
      devList = [] ∨ ∃ d rest, devList = d :: rest ∧ d.hasAxisView = true ∧
        d.hasEncodersView = true := by
  cases devList with
  | nil => simp [attachRemappedRemoteControlBoardDiscovery, remoteControlBoardDiscoveryLoop]
  | cons d rest =>
    unfold attachRemappedRemoteControlBoardDiscovery remoteControlBoardDiscoveryLoop
    cases hA : d.hasAxisView with
    | true =>
      cases hE : d.hasEncodersView with
      | true => simp [hA, hE]
      | false => simp [remoteControlBoardDiscoveryLoop_false, hA, hE]
    | false => simp [remoteControlBoardDiscoveryLoop_false, hA]

/-- Witness for C5's amended statement at a concrete single-device list. -/
theorem C5_discovery_succeeds_iff_first_device_witness :
    attachRemappedRemoteControlBoardDiscovery
      [⟨"cb", none, none, true, true, none⟩] = true :=
  (C5_discovery_succeeds_iff_first_device _).mpr
    (Or.inr ⟨⟨"cb", none, none, true, true, none⟩, [], rfl, rfl, rfl⟩)

/-- C9: the pointer parameter of `attachRemappedMASSensor` is passed by
value, so `attachAndCheckMASSensors` leaves the caller-visible interface
pointer unchanged (second component), and whenever discovery succeeds the
per-name check is evaluated against the member's PRIOR value `iface`, not
against the interface just discovered. -/
theorem C9_mas_pointer_not_propagated
    (masView : DeviceHandle → Option (List String)) (devList : List DeviceHandle)
    (iface sensorList : List String) :
    (attachAndCheckMASSensors masView devList (some iface) sensorList).2 = some iface
    ∧ ((attachRemappedMASSensor masView devList (some iface)).1 = true →
        (attachAndCheckMASSensors masView devList (some iface) sensorList).1
          = checkAttachedMASSensors iface sensorList) := by
  unfold attachAndCheckMASSensors
  refine ⟨?_, ?_⟩
  · split
    · rfl
    · rfl
  · intro h
    simp [h]

/-- Witness for C9: the single attached device enumerates `["newname"]`, so
discovery succeeds, yet the member value consulted by the check is still the
prior `["oldname"]`. -/
theorem C9_mas_pointer_not_propagated_witness :
    (attachRemappedMASSensor (fun d => d.masFTView)
        [⟨"mas", none, some ["newname"], false, false, none⟩] (some ["oldname"])).1 = true
    ∧ (attachAndCheckMASSensors (fun d => d.masFTView)
        [⟨"mas", none, some ["newname"], false, false, none⟩]
        (some ["oldname"]) ["oldname"]).2 = some ["oldname"]
    ∧ (attachAndCheckMASSensors (fun d => d.masFTView)
        [⟨"mas", none, some ["newname"], false, false, none⟩]
        (some ["oldname"]) ["oldname"]).1
        = checkAttachedMASSensors ["oldname"] ["oldname"] :=
  ⟨by decide,
   (C9_mas_pointer_not_propagated _ _ _ _).1,
   (C9_mas_pointer_not_propagated _ _ _ _).2 (by decide)⟩

/-- C7 counterexample: both cameras attach, `"cam0"` has a configured
dimension entry but `"cam1"` does not; the call fails, yet `"cam0"`'s image
buffer has already been allocated — the image-buffer state is NOT unchanged
on failure. -/
theorem C7_earlier_buffers_resized_on_failure :
    (attachAllCamerasOfSpecificType
        [⟨"cam0", none, none, false, false, some true⟩,
         ⟨"cam1", none, none, false, false, some true⟩]
        ["cam0", "cam1"] [("cam0", (4, 5))] [] []).1 = false
    ∧ (attachAllCamerasOfSpecificType
        [⟨"cam0", none, none, false, false, some true⟩,
         ⟨"cam1", none, none, false, false, some true⟩]
        ["cam0", "cam1"] [("cam0", (4, 5))] [] []).2.2 = [("cam0", (4, 5))] := by
  decide

/-- Helper for C7: when some expected camera has no dimension entry, buffer
resizing fails and the final buffer map is the one obtained by resizing the
cameras of the longest prefix in which every camera has an entry. -/
theorem resizeImageBuffers_missing (imgDimensionsMap : List (String × (Nat × Nat))) :
    ∀ (camList : List String) (imgBuffersMap : List (String × (Nat × Nat))),
      (∃ cam ∈ camList, mapFind imgDimensionsMap cam = none) →
      resizeImageBuffers imgDimensionsMap camList imgBuffersMap
        = (false, resizeImagePrefix imgDimensionsMap
            (camList.takeWhile fun c => (mapFind imgDimensionsMap c).isSome) imgBuffersMap) := by
  intro camList
  induction camList with
  | nil => intro _ h; exact absurd h (by simp)
  | cons cam rest ih =>
    intro buffers hmissing
    cases hfind : mapFind imgDimensionsMap cam with
    | none =>
      simp [resizeImageBuffers, hfind, List.takeWhile_cons, resizeImagePrefix]
    | some d =>
      have hrest : ∃ c ∈ rest, mapFind imgDimensionsMap c = none := by
        rcases hmissing with ⟨c, hc, hcnone⟩
        rcases List.mem_cons.mp hc with rfl | hcr
        · exact absurd hcnone (by simp [hfind])
        · exact ⟨c, hcr, hcnone⟩
      simp [resizeImageBuffers, hfind, List.takeWhile_cons, resizeImagePrefix,
        ih _ hrest]

/-- C7 (amended): when some expected camera has no configured (width, height)
entry, camera attachment fails, but the buffers of the cameras preceding the
first offender have already been resized: the final image-buffer map is the
prefix-resized one, and only from the first missing entry onward the buffers
are untouched. -/
theorem C7_missing_dimension_fails_with_prefix_resized
    (imgDimensionsMap : List (String × (Nat × Nat))) (camList : List String)
    (imgBuffersMap : List (String × (Nat × Nat))) (devList : List DeviceHandle)
    (sensorMap : List String)
    (hmissing : ∃ cam ∈ camList, mapFind imgDimensionsMap cam = none) :
    resizeImageBuffers imgDimensionsMap camList imgBuffersMap
      = (false, resizeImagePrefix imgDimensionsMap
          (camList.takeWhile fun c => (mapFind imgDimensionsMap c).isSome) imgBuffersMap)
    ∧ (attachAllCamerasOfSpecificType devList camList imgDimensionsMap sensorMap
        imgBuffersMap).1 = false := by
  have hres := resizeImageBuffers_missing imgDimensionsMap camList imgBuffersMap hmissing
  refine ⟨hres, ?_⟩
  unfold attachAllCamerasOfSpecificType
  cases hloop : attachCameraLoop devList camList sensorMap with
  | mk ok m =>
    cases ok with
    | false => rfl
    | true =>
      by_cases hlen : m.length ≠ camList.length
      · simp [hlen]
      · simp [hlen, hres]

/-- Witness for C7's amended statement at a concrete input. -/
theorem C7_missing_dimension_fails_with_prefix_resized_witness :
    (∃ cam ∈ ["cam0", "cam1"], mapFind [("cam0", (4, 5))] cam = none)
    ∧ resizeImageBuffers [("cam0", (4, 5))] ["cam0", "cam1"] []
        = (false, resizeImagePrefix [("cam0", (4, 5))]
            ((["cam0", "cam1"] : List String).takeWhile
              fun c => (mapFind [("cam0", (4, 5))] c).isSome) [])
    ∧ (attachAllCamerasOfSpecificType
        [⟨"cam0", none, none, false, false, some true⟩,
         ⟨"cam1", none, none, false, false, some true⟩]
        ["cam0", "cam1"] [("cam0", (4, 5))] [] []).1 = false :=
  ⟨by decide,
   (C7_missing_dimension_fails_with_prefix_resized _ _ _ [] [] (by decide)).1,
   (C7_missing_dimension_fails_with_prefix_resized _ _ _
     [⟨"cam0", none, none, false, false, some true⟩,
      ⟨"cam1", none, none, false, false, some true⟩] [] (by decide)).2⟩

/-- Specification of the inner joint search: a returned index is the first
position of the joint within the control-board names. -/
theorem findJointIdx_eq_some (joint : String) :
    ∀ (controlBoardJoints : List String) (k : Nat),
      findJointIdx joint controlBoardJoints = some k →
      controlBoardJoints.get? k = some joint ∧
        ∀ k' < k, controlBoardJoints.get? k' ≠ some joint := by
  intro cb
  induction cb with
  | nil => intro k h; simp [findJointIdx] at h
  | cons j js ih =>
    intro k h
    by_cases hj : joint = j
    · rw [findJointIdx, if_pos hj] at h
      have hk : 0 = k := Option.some.inj h
      subst hk
      refine ⟨by rw [hj]; rfl, ?_⟩
      intro k' hk'
      exact absurd hk' (Nat.not_lt_zero k')
    · rw [findJointIdx, if_neg hj] at h
      rcases Option.map_eq_some'.mp h with ⟨k0, hk0, hkk⟩
      subst hkk
      obtain ⟨hget, hfirst⟩ := ih k0 hk0
      refine ⟨by simpa using hget, ?_⟩
      intro k' hk'
      cases k' with
      | zero =>
        rw [List.get?_cons_zero]
        intro hc
        exact hj (Option.some.inj hc).symm
      | succ k1 =>
        rw [List.get?_cons_succ]
        exact hfirst k1 (by omega)

/-- The inner joint search fails exactly on the joints that do not occur
among the control-board names. -/
theorem findJointIdx_eq_none (joint : String) (controlBoardJoints : List String) :
    findJointIdx joint controlBoardJoints = none ↔ joint ∉ controlBoardJoints := by
  induction controlBoardJoints with
  | nil => simp [findJointIdx]
  | cons j js ih =>
    by_cases hj : joint = j
    · subst hj; simp [findJointIdx]
    · simp [findJointIdx, hj, ih, Ne.symm]

/-- Characterization of the successful outer remap loop: the result extends
the accumulator with one first-match index per canonical joint. -/
theorem compareControlBoardJointsLoop_some (controlBoardJoints : List String) :
    ∀ (jointsList : List String) (acc remap : List Nat),
      compareControlBoardJointsLoop controlBoardJoints jointsList acc = some remap →
      ∃ tail, remap = acc ++ tail ∧ tail.length = jointsList.length ∧
        ∀ i k, tail.get? i = some k →
          ∃ name, jointsList.get? i = some name ∧
            findJointIdx name controlBoardJoints = some k := by
  intro jointsList
  induction jointsList with
  | nil =>
    intro acc remap h
    have hr : acc = remap := by
      simpa [compareControlBoardJointsLoop] using h
    subst hr
    exact ⟨[], by simp, by simp, fun i k h => by simp at h⟩
  | cons joint rest ih =>
    intro acc remap h
    cases hfind : findJointIdx joint controlBoardJoints with
    | none =>
      rw [compareControlBoardJointsLoop, hfind] at h
      exact absurd h (by simp)
    | some idx =>
      rw [compareControlBoardJointsLoop, hfind] at h
      rcases ih (acc ++ [idx]) remap h with ⟨tail', htail', hlen, hspec⟩
      refine ⟨idx :: tail', by simpa using htail', by simpa using hlen, ?_⟩
      intro i k hik
      cases i with
      | zero =>
        have hk : idx = k := Option.some.inj (by simpa using hik)
        subst hk
        exact ⟨joint, rfl, hfind⟩
      | succ i0 =>
        rw [List.get?_cons_succ] at hik
        rcases hspec i0 k hik with ⟨name, hn1, hn2⟩
        exact ⟨name, by simpa using hn1, hn2⟩

/-- The outer remap loop aborts when some canonical joint has no match. -/
theorem compareControlBoardJointsLoop_none (controlBoardJoints : List String) :
    ∀ (jointsList : List String) (acc : List Nat) (name : String),
      name ∈ jointsList → findJointIdx name controlBoardJoints = none →
      compareControlBoardJointsLoop controlBoardJoints jointsList acc = none := by
  intro jointsList
  induction jointsList with
  | nil => intro acc name h; exact absurd h (by simp)
  | cons joint rest ih =>
    intro acc name hmem hnone
    cases hfind : findJointIdx joint controlBoardJoints with
    | none => rw [compareControlBoardJointsLoop, hfind]
    | some idx =>
      have hname : name ∈ rest := by
        rcases List.mem_cons.mp hmem with rfl | hr
        · rw [hnone] at hfind; exact absurd hfind (by simp)
        · exact hr
      rw [compareControlBoardJointsLoop, hfind]
      exact ih (acc ++ [idx]) name hname hnone

/-- C4: when joint remapping succeeds, the remap vector has one entry per
canonical joint and entry `i` is the position of the FIRST occurrence of
canonical name `i` in the live control-board sequence (in particular
`live_names[remap[i]] = canonical_names[i]`); and when any canonical joint is
absent from the live sequence, remapping fails — the entry never silently
defaults to index 0 and the joint is never skipped. -/
theorem C4_joint_remap_first_occurrence (jointsList controlBoardJoints : List String) :
    (∀ remap, compareControlBoardJointsList jointsList controlBoardJoints = some remap →
      remap.length = jointsList.length ∧
      ∀ i k, remap.get? i = some k →
        ∃ name, jointsList.get? i = some name ∧
          controlBoardJoints.get? k = some name ∧
          ∀ k' < k, controlBoardJoints.get? k' ≠ some name)
    ∧ (∀ name ∈ jointsList, name ∉ controlBoardJoints →
        compareControlBoardJointsList jointsList controlBoardJoints = none) := by
  constructor
  · intro remap h
    have hloop : compareControlBoardJointsLoop controlBoardJoints jointsList []
        = some remap := by
      unfold compareControlBoardJointsList at h
      cases hc : compareControlBoardJointsLoop controlBoardJoints jointsList [] with
      | none => rw [hc] at h; exact absurd h (by simp)
      | some r =>
        rw [hc] at h
        by_cases hnil : jointsList = []
        · simp [hnil] at h
        · simp only [hnil, if_false, ite_false, if_neg, Option.some.injEq] at h
          rw [h]
    rcases compareControlBoardJointsLoop_some controlBoardJoints jointsList [] remap hloop
      with ⟨tail, htail, hlen, hspec⟩
    simp only [List.nil_append] at htail
    subst htail
    refine ⟨hlen, ?_⟩
    intro i k hik
    rcases hspec i k hik with ⟨name, hn1, hn2⟩
    rcases findJointIdx_eq_some name controlBoardJoints k hn2 with ⟨hget, hfirst⟩
    exact ⟨name, hn1, hget, hfirst⟩
  · intro name hmem habs
    have hnone : findJointIdx name controlBoardJoints = none :=
      (findJointIdx_eq_none name controlBoardJoints).mpr habs
    unfold compareControlBoardJointsList
    rw [compareControlBoardJointsLoop_none controlBoardJoints jointsList [] name hmem hnone]

/-- Witness for C4: the live sequence contains a duplicate of `"a"` at index
3; the remap selects the first occurrence (index 1), as the theorem's
first-occurrence property requires. -/
theorem C4_joint_remap_first_occurrence_witness :
    compareControlBoardJointsList ["a", "b"] ["c", "a", "b", "a"] = some [1, 2]
    ∧ ∃ name, (["a", "b"] : List String).get? 0 = some name ∧
        (["c", "a", "b", "a"] : List String).get? 1 = some name ∧
        ∀ k' < 1, (["c", "a", "b", "a"] : List String).get? k' ≠ some name :=
  ⟨by decide,
   (C4_joint_remap_first_occurrence ["a", "b"] ["c", "a", "b", "a"]).1
     [1, 2] (by decide) |>.2 0 1 (by decide)⟩

/-- Membership in the key-set model of `unordered_map` insertion. -/
theorem mem_mapInsertKey {m : List String} {k x : String} :
    x ∈ mapInsertKey m k ↔ x = k ∨ x ∈ m := by
  unfold mapInsertKey
  split
  · rename_i hin
    constructor
    · exact Or.inr
    · rintro (rfl | hx)
      · exact hin
      · exact hx
  · simp [List.mem_cons]

/-- The key-set model of an `unordered_map` stays duplicate-free. -/
theorem nodup_mapInsertKey {m : List String} (hm : m.Nodup) (k : String) :
    (mapInsertKey m k).Nodup := by
  unfold mapInsertKey
  split
  · exact hm
  · rename_i hnot
    exact List.nodup_cons.mpr ⟨hnot, hm⟩

/-- Distinct devices of a list with duplicate-free keys have distinct keys. -/
theorem key_injective_of_nodup :
    ∀ (devList : List DeviceHandle), (devList.map DeviceHandle.key).Nodup →
      ∀ d ∈ devList, ∀ d' ∈ devList, d.key = d'.key → d = d' := by
  intro devList
  induction devList with
  | nil => intro _ d hd; exact absurd hd (List.not_mem_nil d)
  | cons dev rest ih =>
    intro hk d hd d' hd' hkey
    rw [List.map_cons, List.nodup_cons] at hk
    obtain ⟨hnotin, hrest⟩ := hk
    rcases List.mem_cons.mp hd with rfl | hdr
    · rcases List.mem_cons.mp hd' with rfl | hd'r
      · rfl
      · have : d.key ∈ rest.map DeviceHandle.key := by
          rw [hkey]
          exact List.mem_map_of_mem DeviceHandle.key hd'r
        exact absurd this hnotin
    · rcases List.mem_cons.mp hd' with rfl | hd'r
      · have : d'.key ∈ rest.map DeviceHandle.key := by
          rw [← hkey]
          exact List.mem_map_of_mem DeviceHandle.key hdr
        exact absurd this hnotin
      · exact ih hrest d hdr d' hd'r hkey

/-- When no device key matches the requested name, the per-sensor attachment
returns success with the map unchanged. -/
theorem attachGeneric_no_device (view : DeviceHandle → Option Nat) (name : String)
    (ch : Nat) :
    ∀ (devList : List DeviceHandle) (m : List String),
      (∀ d ∈ devList, d.key ≠ name) →
      attachGenericOrAnalogSensor view name ch devList m = some m := by
  intro devList
  induction devList with
  | nil => intro m _; rfl
  | cons dev rest ih =>
    intro m hno
    have hne : name ≠ dev.key := fun h => hno dev (List.mem_cons_self dev rest) h.symm
    rw [attachGenericOrAnalogSensor, if_pos hne]
    exact ih m (fun d hd => hno d (List.mem_cons_of_mem dev hd))

/-- When the (unique) device with the requested name offers the view with the
expected channel count, the per-sensor attachment inserts the name. -/
theorem attachGeneric_device_ok (view : DeviceHandle → Option Nat) (name : String)
    (ch : Nat) :
    ∀ (devList : List DeviceHandle) (m : List String),
      (devList.map DeviceHandle.key).Nodup →
      ∀ d ∈ devList, d.key = name → view d = some ch →
      attachGenericOrAnalogSensor view name ch devList m = some (mapInsertKey m name) := by
  intro devList
  induction devList with
  | nil => intro m _ d hd; exact absurd hd (List.not_mem_nil d)
  | cons dev rest ih =>
    intro m hnodup d hd hdkey hdview
    rw [List.map_cons, List.nodup_cons] at hnodup
    obtain ⟨hnotin, hrest⟩ := hnodup
    rcases List.mem_cons.mp hd with rfl | hdr
    · have hcond : ¬ (name ≠ d.key) := fun hne => hne hdkey.symm
      rw [attachGenericOrAnalogSensor, if_neg hcond]
      simp only [hdview]
      rw [if_neg (fun hc => hc rfl)]
      have hnorest : ∀ d' ∈ rest, d'.key ≠ name := by
        intro d' hd' he
        apply hnotin
        rw [hdkey, ← he]
        exact List.mem_map_of_mem DeviceHandle.key hd'
      rw [hdkey]
      exact attachGeneric_no_device view name ch rest (mapInsertKey m name) hnorest
    · have hne : name ≠ dev.key := by
        intro he
        apply hnotin
        rw [← he, ← hdkey]
        exact List.mem_map_of_mem DeviceHandle.key hdr
      rw [attachGenericOrAnalogSensor, if_pos hne]
      exact ih m hrest d hdr hdkey hdview

/-- When the (unique) device with the requested name fails to provide the
view with the expected channel count, the per-sensor attachment fails. -/
theorem attachGeneric_device_bad (view : DeviceHandle → Option Nat) (name : String)
    (ch : Nat) :
    ∀ (devList : List DeviceHandle) (m : List String),
      (devList.map DeviceHandle.key).Nodup →
      ∀ d ∈ devList, d.key = name → view d ≠ some ch →
      attachGenericOrAnalogSensor view name ch devList m = none := by
  intro devList
  induction devList with
  | nil => intro m _ d hd; exact absurd hd (List.not_mem_nil d)
  | cons dev rest ih =>
    intro m hnodup d hd hdkey hdview
    rw [List.map_cons, List.nodup_cons] at hnodup
    obtain ⟨hnotin, hrest⟩ := hnodup
    rcases List.mem_cons.mp hd with rfl | hdr
    · have hcond : ¬ (name ≠ d.key) := fun hne => hne hdkey.symm
      rw [attachGenericOrAnalogSensor, if_neg hcond]
      cases hv : view d with
      | none => rfl
      | some c =>
        have hc : c ≠ ch := by
          intro he
          exact hdview (by rw [hv, he])
        simp only [hv]
        rw [if_pos hc]
    · have hne : name ≠ dev.key := by
        intro he
        apply hnotin
        rw [← he, ← hdkey]
        exact List.mem_map_of_mem DeviceHandle.key hdr
      rw [attachGenericOrAnalogSensor, if_pos hne]
      exact ih m hrest d hdr hdkey hdview

/-- When some expected name resolves to a device whose view fails or reports
the wrong channel count, the whole per-category loop fails. -/
theorem attachAllLoop_conflict (view : DeviceHandle → Option Nat) (ch : Nat)
    (devList : List DeviceHandle) (hk : (devList.map DeviceHandle.key).Nodup) :
    ∀ (sensorList : List String) (m : List String),
      (∃ name ∈ sensorList, ∃ d ∈ devList, d.key = name ∧ view d ≠ some ch) →
      attachAllGenericOrAnalogSensorsLoop view ch devList sensorList m = none := by
  intro sensorList
  induction sensorList with
  | nil => intro m h; simp at h
  | cons name0 rest ih =>
    intro m hconf
    rcases hconf with ⟨name, hnmem, d, hd, hdkey, hdbad⟩
    rcases List.mem_cons.mp hnmem with rfl | hnr
    · simp only [attachAllGenericOrAnalogSensorsLoop,
        attachGeneric_device_bad view name ch devList m hk d hd hdkey hdbad]
    · cases hatt : attachGenericOrAnalogSensor view name0 ch devList m with
      | none => simp only [attachAllGenericOrAnalogSensorsLoop, hatt]
      | some m2 =>
        simp only [attachAllGenericOrAnalogSensorsLoop, hatt]
        exact ih m2 ⟨name, hnr, d, hd, hdkey, hdbad⟩

/-- When every expected name's matching device (if any) offers the expected
view, the per-category loop completes and the final map's keys are the
initial ones plus exactly the expected names that resolve to a good device. -/
theorem attachAllLoop_clean (view : DeviceHandle → Option Nat) (ch : Nat)
    (devList : List DeviceHandle) (hk : (devList.map DeviceHandle.key).Nodup) :
    ∀ (sensorList : List String) (m : List String),
      (∀ name ∈ sensorList, ∀ d ∈ devList, d.key = name → view d = some ch) →
      ∃ fm, attachAllGenericOrAnalogSensorsLoop view ch devList sensorList m = some fm ∧
        (∀ x, x ∈ fm ↔ x ∈ m ∨ (x ∈ sensorList ∧ ∃ d ∈ devList, d.key = x ∧ view d = some ch))
        ∧ (m.Nodup → fm.Nodup) := by
  intro sensorList
  induction sensorList with
  | nil =>
    intro m _
    exact ⟨m, rfl, by simp, id⟩
  | cons name0 rest ih =>
    intro m hclean
    by_cases hdev : ∃ d ∈ devList, d.key = name0
    · rcases hdev with ⟨d, hd, hdkey⟩
      have hview : view d = some ch := hclean name0 (List.mem_cons_self name0 rest) d hd hdkey
      have hstep := attachGeneric_device_ok view name0 ch devList m hk d hd hdkey hview
      rcases ih (mapInsertKey m name0)
        (fun n hn => hclean n (List.mem_cons_of_mem name0 hn)) with ⟨fm, hfm, hmem, hnd⟩
      refine ⟨fm, ?_, ?_, ?_⟩
      · simp only [attachAllGenericOrAnalogSensorsLoop, hstep, hfm]
      · intro x
        rw [hmem x, mem_mapInsertKey]
        constructor
        · rintro ((rfl | hxm) | ⟨hxr, hres⟩)
          · exact Or.inr ⟨List.mem_cons_self x rest, d, hd, hdkey, hview⟩
          · exact Or.inl hxm
          · exact Or.inr ⟨List.mem_cons_of_mem name0 hxr, hres⟩
        · rintro (hxm | ⟨hxl, hres⟩)
          · exact Or.inl (Or.inr hxm)
          · rcases List.mem_cons.mp hxl with rfl | hxr
            · exact Or.inl (Or.inl rfl)
            · exact Or.inr ⟨hxr, hres⟩
      · intro hmn
        exact hnd (nodup_mapInsertKey hmn name0)
    · push_neg at hdev
      have hstep := attachGeneric_no_device view name0 ch devList m hdev
      rcases ih m (fun n hn => hclean n (List.mem_cons_of_mem name0 hn))
        with ⟨fm, hfm, hmem, hnd⟩
      refine ⟨fm, by simp only [attachAllGenericOrAnalogSensorsLoop, hstep, hfm], ?_, hnd⟩
      intro x
      rw [hmem x]
      constructor
      · rintro (hxm | ⟨hxr, hres⟩)
        · exact Or.inl hxm
        · exact Or.inr ⟨List.mem_cons_of_mem name0 hxr, hres⟩
      · rintro (hxm | ⟨hxl, hres⟩)
        · exact Or.inl hxm
        · rcases List.mem_cons.mp hxl with rfl | hxr
          · rcases hres with ⟨d, hd, hdk, _⟩
            exact absurd hdk (hdev d hd)
          · exact Or.inr ⟨hxr, hres⟩

/-- C2: with duplicate-free device keys, attachment of a generic-or-analog
category succeeds exactly when the expected list has no duplicate name and
every expected name has a matching device whose capability view is obtainable
and reports exactly the category's expected channel count; any missing
handle, failed view, channel-count mismatch, or duplicate expected name makes
the category's attachment fail. -/
theorem C2_generic_analog_attach_iff (view : DeviceHandle → Option Nat)
    (devList : List DeviceHandle) (nrChannelsInSensor : Nat) (sensorList : List String)
    (hk : (devList.map DeviceHandle.key).Nodup) :
    attachAllGenericOrAnalogSensors view devList nrChannelsInSensor sensorList = true ↔
      sensorList.Nodup ∧
        ∀ name ∈ sensorList,
          ∃ d ∈ devList, d.key = name ∧ view d = some nrChannelsInSensor := by
  constructor
  · intro h
    unfold attachAllGenericOrAnalogSensors at h
    have hnoconf : ∀ name ∈ sensorList, ∀ d ∈ devList, d.key = name →
        view d = some nrChannelsInSensor := by
      by_contra hcon
      push_neg at hcon
      rcases hcon with ⟨name, hn, d, hd, hdk, hdv⟩
      rw [attachAllLoop_conflict view nrChannelsInSensor devList hk sensorList []
        ⟨name, hn, d, hd, hdk, hdv⟩] at h
      exact absurd h (by simp)
    rcases attachAllLoop_clean view nrChannelsInSensor devList hk sensorList [] hnoconf
      with ⟨fm, hfm, hmem, hnd⟩
    rw [hfm] at h
    have hlen : fm.length = sensorList.length := by simpa using h
    have hfmnd : fm.Nodup := hnd List.nodup_nil
    have hsub : fm ⊆ sensorList := by
      intro x hx
      rcases (hmem x).mp hx with hxm | ⟨hxl, _⟩
      · exact absurd hxm (List.not_mem_nil x)
      · exact hxl
    have hperm : List.Perm fm sensorList :=
      (hfmnd.subperm hsub).perm_of_length_le (le_of_eq hlen.symm)
    refine ⟨hperm.nodup_iff.mp hfmnd, ?_⟩
    intro name hnl
    have hmemfm : name ∈ fm := hperm.mem_iff.mpr hnl
    rcases (hmem name).mp hmemfm with hxm | ⟨_, hres⟩
    · exact absurd hxm (List.not_mem_nil name)
    · exact hres
  · rintro ⟨hnd, hres⟩
    have hnoconf : ∀ name ∈ sensorList, ∀ d ∈ devList, d.key = name →
        view d = some nrChannelsInSensor := by
      intro name hn d hd hdk
      rcases hres name hn with ⟨d', hd', hdk', hdv'⟩
      have hdd : d = d' :=
        key_injective_of_nodup devList hk d hd d' hd' (by rw [hdk, hdk'])
      rw [hdd]
      exact hdv'
    rcases attachAllLoop_clean view nrChannelsInSensor devList hk sensorList [] hnoconf
      with ⟨fm, hfm, hmem, hnod⟩
    unfold attachAllGenericOrAnalogSensors
    rw [hfm]
    have hfmnd : fm.Nodup := hnod List.nodup_nil
    have hsetEq : ∀ x, x ∈ fm ↔ x ∈ sensorList := by
      intro x
      rw [hmem x]
      constructor
      · rintro (hxm | ⟨hxl, _⟩)
        · exact absurd hxm (List.not_mem_nil x)
        · exact hxl
      · intro hx
        exact Or.inr ⟨hx, hres x hx⟩
    have hperm : List.Perm fm sensorList := (List.perm_ext_iff_of_nodup hfmnd hnd).mpr hsetEq
    simp [hperm.length_eq]

/-- Witness for C2 at a concrete two-IMU device list. -/
theorem C2_generic_analog_attach_iff_witness :
    ((([⟨"imu0", some 12, none, false, false, none⟩,
        ⟨"imu1", some 12, none, false, false, none⟩] : List DeviceHandle).map
          DeviceHandle.key).Nodup)
    ∧ attachAllGenericOrAnalogSensors (fun d => d.genericView)
        [⟨"imu0", some 12, none, false, false, none⟩,
         ⟨"imu1", some 12, none, false, false, none⟩] 12 ["imu0", "imu1"] = true :=
  ⟨by decide,
   (C2_generic_analog_attach_iff (fun d => d.genericView)
      [⟨"imu0", some 12, none, false, false, none⟩,
       ⟨"imu1", some 12, none, false, false, none⟩] 12 ["imu0", "imu1"]
      (by decide)).mpr (by decide)⟩

end YarpBridge
